import Mathlib

set_option maxRecDepth 20000
set_option maxHeartbeats 1000000

/-!
Shallow embedding of the Akro document framework script
(`src/v6-akro/akro_script.py`) and verification of its specification claims.

The script's core is pure string processing: classifying documentation files
into categories, deriving display titles, inferring typed relations between
documents, serializing entity/relation records as JSON lines, and splicing
timestamped lines into a progress log.  We embed these operations as Lean
functions over `String`/`List Char`, modelling the Python builtins
(`str.replace`, `str.title`, `str.capitalize`, `str.strip`, `in`,
`str.startswith`, `re.search` for the three concrete patterns used, and
`json.dumps` for the two record shapes used) at the inputs the script feeds
them.  File I/O is modelled by explicit state records; timestamps are passed
as parameters since `datetime.now()` is nondeterministic.
-/

namespace Akro

/-- Initial-segment test on character lists: `charsLead pat l` is true when
`pat` is an initial segment of `l`.  Used to model Python's substring scans. -/
def charsLead : List Char → List Char → Bool
  | [], _ => true
  | _ :: _, [] => false
  | a :: as, b :: bs => a == b && charsLead as bs

/-- Substring occurrence test: `charsFind pat l` is true when `pat` occurs as
a contiguous substring of `l`.  Models Python's `pat in s`. -/
def charsFind (pat : List Char) : List Char → Bool
  | [] => pat.isEmpty
  | c :: rest => charsLead pat (c :: rest) || charsFind pat rest

/-- Python `pat in hay` (substring containment). -/
def strContains (hay pat : String) : Bool :=
  charsFind pat.data hay.data

/-- Python `s.startswith(pre)`. -/
def pyStartsWith (s pre : String) : Bool :=
  charsLead pre.data s.data

/-- Characters of the current line: everything up to (excluding) the next
newline.  Models what `.` can consume before `$` in a non-DOTALL regex. -/
def takeLine : List Char → List Char
  | [] => []
  | c :: cs => if c = '\n' then [] else c :: takeLine cs

/-- Model of `re.search(r"# (.+?)$", content, re.MULTILINE)` from
`extract_metadata`, returning `group(1)` of the first match.  The pattern is
not anchored to line starts, so a match begins at any occurrence of the
two-character sequence `"# "` that is followed by at least one non-newline
character; the lazy `.+?` followed by `$` then consumes exactly the rest of
that line.  `re.search` tries start positions left to right. -/
def findHashHeading : List Char → Option (List Char)
  | [] => none
  | '#' :: rest =>
    match rest with
    | ' ' :: c :: rest2 =>
      if c = '\n' then findHashHeading rest
      else some (c :: takeLine rest2)
    | _ => findHashHeading rest
  | _ :: rest => findHashHeading rest

/-- Maximal leading digit run of a character list, with the remainder. -/
def takeDigits : List Char → List Char × List Char
  | [] => ([], [])
  | c :: rest =>
    if c.isDigit then
      let p := takeDigits rest
      (c :: p.1, p.2)
    else ([], c :: rest)

/-- The literal characters of `"Stage "`. -/
def stageLit : List Char := ['S', 't', 'a', 'g', 'e', ' ']

/-- Separator class `[._]` used by the stage-title patterns. -/
def sepDot (c : Char) : Bool := c == '.' || c == '_'

/-- Model of `re.search(r"Stage (\d+)[._]", title)` from the implements rule,
returning `group(1)` of the first match.  A match at a position requires the
literal `"Stage "`, then a nonempty digit run, then `.` or `_`; because
`\d+` is greedy and a shorter digit prefix would be followed by a digit
(which is not in `[._]`), the captured group is exactly the maximal digit
run.  On failure the search resumes at the next start position. -/
def stagePhaseNum : List Char → Option (List Char)
  | [] => none
  | c :: rest =>
    if charsLead stageLit (c :: rest) then
      let after := List.drop 5 rest
      let ds := (takeDigits after).1
      match (takeDigits after).2 with
      | x :: _ =>
        if ds ≠ [] && sepDot x then some ds else stagePhaseNum rest
      | [] => stagePhaseNum rest
    else stagePhaseNum rest

/-- Model of `re.search(r"Stage (\d+[._]\d+)", title)` from the completed_by
rule, returning `group(1)` of the first match: maximal digit run, one `.` or
`_`, then another maximal digit run. -/
def stageId : List Char → Option (List Char)
  | [] => none
  | c :: rest =>
    if charsLead stageLit (c :: rest) then
      let after := List.drop 5 rest
      let ds1 := (takeDigits after).1
      match (takeDigits after).2 with
      | x :: r2 =>
        if ds1 ≠ [] && sepDot x then
          let ds2 := (takeDigits r2).1
          if ds2 ≠ [] then some (ds1 ++ x :: ds2) else stageId rest
        else stageId rest
      | [] => stageId rest
    else stageId rest

/-- Helper for `pyTitle`: the Bool records whether the previous character was
alphabetic (ASCII), i.e. "cased" for the inputs this script processes. -/
def pyTitleAux : List Char → Bool → List Char
  | [], _ => []
  | c :: cs, prev =>
    if c.isAlpha then
      (if prev then c.toLower else c.toUpper) :: pyTitleAux cs true
    else c :: pyTitleAux cs false

/-- Python `s.title()` (ASCII): first letter of each alphabetic run is
uppercased, the rest lowercased. -/
def pyTitle (s : String) : String :=
  String.mk (pyTitleAux s.data false)

/-- Python `s.capitalize()`: first character uppercased, the rest lowercased. -/
def pyCapitalize (s : String) : String :=
  match s.data with
  | [] => ""
  | c :: cs => String.mk (c.toUpper :: cs.map Char.toLower)

/-- A string with (only) its first character uppercased — the wording used by
the specification ("category with its first letter capitalized"). -/
def capFirst (s : String) : String :=
  match s.data with
  | [] => ""
  | c :: cs => String.mk (c.toUpper :: cs)

/-- ASCII whitespace stripped by Python `str.strip()`. -/
def pyIsSpace (c : Char) : Bool :=
  c == ' ' || c == '\t' || c == '\n' || c == '\r' || c == '\x0b' || c == '\x0c'

/-- Python `s.strip()` on a character list. -/
def pyStripL (l : List Char) : List Char :=
  ((l.dropWhile pyIsSpace).reverse.dropWhile pyIsSpace).reverse

/-- Python `s.lower()` (ASCII). -/
def pyLower (s : String) : String :=
  String.mk (s.data.map Char.toLower)

/-- Fuel-indexed worker for Python `s.replace(pat, rep)` (all occurrences,
scanned left to right, non-overlapping).  The fuel is the length of the
remaining input, which suffices because every step consumes at least one
character of the input; the script only calls this with nonempty `pat`. -/
def pyReplaceGo (pat rep : List Char) : Nat → List Char → List Char
  | _, [] => []
  | 0, s => s
  | fuel + 1, c :: rest =>
    if pat ≠ [] && charsLead pat (c :: rest) then
      rep ++ pyReplaceGo pat rep fuel (List.drop (pat.length - 1) rest)
    else c :: pyReplaceGo pat rep fuel rest

/-- Python `s.replace(pat, rep)` for nonempty `pat`. -/
def pyReplaceStr (s pat rep : String) : String :=
  String.mk (pyReplaceGo pat.data rep.data s.data.length s.data)

/-- Metadata categories, in the order the classifier can produce them. -/
def categoryValues : List String :=
  ["phase", "stage", "report", "spec", "roadmap", "progress", "document"]

/-- Category classification from `extract_metadata`: substring checks on
`str(file_path)` first, then filename equality checks on `file_path.name`,
in the source's fixed `if/elif` order. -/
def categoryOf (pathStr name : String) : String :=
  if strContains pathStr "phases" then "phase"
  else if strContains pathStr "stages" then "stage"
  else if strContains pathStr "reports" then "report"
  else if name = "client_spec.md" then "spec"
  else if name = "project_roadmap.md" then "roadmap"
  else if name = "progress.md" then "progress"
  else "document"

/-- Default title from `extract_metadata`:
`file_path.stem.replace("-", " ").replace("_", " ").title()`. -/
def defaultTitle (stem : String) : String :=
  pyTitle (pyReplaceStr (pyReplaceStr stem "-" " ") "_" " ")

/-- Title derivation from `extract_metadata`: the default title, overridden
by `heading_match.group(1).strip()` when `re.search(r"# (.+?)$", content,
re.MULTILINE)` matches. -/
def titleOf (stem content : String) : String :=
  match findHashHeading content.data with
  | some lineRest => String.mk (pyStripL lineRest)
  | none => defaultTitle stem

/-- A file as read from disk: `str(file_path)`, `file_path.name`,
`file_path.stem`, and the file's text content. -/
structure FileInput where
  pathStr : String
  name : String
  stem : String
  content : String
deriving DecidableEq, Repr

/-- The dictionary returned by `extract_metadata` on success. -/
structure Document where
  path : String
  title : String
  category : String
  content : String
deriving DecidableEq, Repr

/-- Model of `extract_metadata`, on the success path (I/O and decode errors, which
make the Python function return `None`, are outside this pure model). -/
def extractMetadata (f : FileInput) : Document :=
  { path := f.pathStr
    title := titleOf f.stem f.content
    category := categoryOf f.pathStr f.name
    content := f.content }

/-- A record written to the memory file: the `"entity"` and `"relation"`
dictionaries built by `create_memory_entries` (`srcTitle`/`dstTitle` carry
the JSON `"from"`/`"to"` fields). -/
inductive MemEntry where
  | entity (name entityType : String) (observations : List String)
  | relation (srcTitle dstTitle relationType : String)
deriving DecidableEq, Repr

/-- Is a memory entry a relation record? -/
def isRelationEntry : MemEntry → Bool
  | .relation _ _ _ => true
  | .entity _ _ _ => false

/-- Model of `next((d for d in documents if d and d["category"] == cat), None)`:
first non-`None` document of the given category. -/
def firstCat (documents : List (Option Document)) (cat : String) : Option Document :=
  documents.findSome? (fun od =>
    match od with
    | some d => if d.category = cat then some d else none
    | none => none)

/-- Model of `[d for d in documents if d and d["category"] == cat]`:
all non-`None` documents of the given category, in input order. -/
def allCat (documents : List (Option Document)) (cat : String) : List Document :=
  documents.filterMap (fun od =>
    match od with
    | some d => if d.category = cat then some d else none
    | none => none)

/-- The entity records emitted by the first loop of `create_memory_entries`:
one per non-`None` document, in input order. -/
def entityEntries (documents : List (Option Document)) : List MemEntry :=
  documents.filterMap (fun od =>
    match od with
    | some d => some (MemEntry.entity d.title (pyCapitalize d.category) [d.content])
    | none => none)

/-- Rule "informs": one relation spec → roadmap when both exist. -/
def informsRels (documents : List (Option Document)) : List MemEntry :=
  match firstCat documents "spec", firstCat documents "roadmap" with
  | some sp, some rm => [MemEntry.relation sp.title rm.title "informs"]
  | _, _ => []

/-- Rule "tracks": when a progress document exists, one relation
progress → d for every non-`None` document `d` with `d != progress`
(Python dictionary value inequality), in input order. -/
def tracksRels (documents : List (Option Document)) : List MemEntry :=
  match firstCat documents "progress" with
  | none => []
  | some pr =>
    documents.filterMap (fun od =>
      match od with
      | some d =>
        if d ≠ pr then some (MemEntry.relation pr.title d.title "tracks") else none
      | none => none)

/-- Rule "contains": when a roadmap exists, one relation roadmap → p for
every phase document `p`. -/
def containsRels (documents : List (Option Document)) : List MemEntry :=
  match firstCat documents "roadmap" with
  | none => []
  | some rm =>
    (allCat documents "phase").map (fun ph =>
      MemEntry.relation rm.title ph.title "contains")

/-- Rule "implements": for each stage whose title matches
`Stage (\d+)[._]`, one relation p → s for every phase whose title contains
`"Phase <digits>"`. -/
def implementsRels (documents : List (Option Document)) : List MemEntry :=
  (allCat documents "stage").flatMap (fun st =>
    match stagePhaseNum st.title.data with
    | none => []
    | some num =>
      (allCat documents "phase").filterMap (fun ph =>
        if strContains ph.title ("Phase " ++ String.mk num) then
          some (MemEntry.relation ph.title st.title "implements")
        else none))

/-- Rule "completed_by": for each stage/report pair, when the stage title
matches `Stage (\d+[._]\d+)` and the captured identifier occurs in the
report title, one relation s → r. -/
def completedByRels (documents : List (Option Document)) : List MemEntry :=
  (allCat documents "stage").flatMap (fun st =>
    (allCat documents "report").filterMap (fun rp =>
      match stageId st.title.data with
      | some sid =>
        if strContains rp.title (String.mk sid) then
          some (MemEntry.relation st.title rp.title "completed_by")
        else none
      | none => none))

/-- The relation records of `create_memory_entries`, in the source's fixed
rule order. -/
def relationEntries (documents : List (Option Document)) : List MemEntry :=
  informsRels documents ++ tracksRels documents ++ containsRels documents ++
    implementsRels documents ++ completedByRels documents

/-- Model of `create_memory_entries`: the appends of the source happen in this order —
the entity loop first, then the five relation rules. -/
def createMemoryEntries (documents : List (Option Document)) : List MemEntry :=
  entityEntries documents ++ relationEntries documents

/-- The relation records of a given type among a list of entries. -/
def relFilter (entries : List MemEntry) (rtype : String) : List MemEntry :=
  entries.filter (fun e =>
    match e with
    | .relation _ _ r => r == rtype
    | .entity _ _ _ => false)

/-- The entity record the specification describes for a document. -/
def entityOfClaim (d : Document) : MemEntry :=
  MemEntry.entity d.title (capFirst d.category) [d.content]

-- sample documents used by concrete instances and witnesses
/-- Sample spec document. -/
def dSpec : Document :=
  ⟨"docs/client_spec.md", "Client Specification", "spec", "spec body"⟩

/-- Sample progress document. -/
def dProg : Document :=
  ⟨"docs/progress.md", "Project Progress Log", "progress", "progress body"⟩

/-- Sample phase document, "Phase 2: Core". -/
def dPhase2 : Document :=
  ⟨"docs/phases/phase2.md", "Phase 2: Core", "phase", "phase two body"⟩

/-- Sample stage document, "Stage 2.1: Auth". -/
def dStage21 : Document :=
  ⟨"docs/stages/stage2_1-auth.md", "Stage 2.1: Auth", "stage", "stage body"⟩

/-- Sample stage document, "Stage 9.1: X" (no matching phase). -/
def dStage91 : Document :=
  ⟨"docs/stages/stage9_1-x.md", "Stage 9.1: X", "stage", "stage nine body"⟩

/-- Sample stage document, "Stage 3.2: Setup". -/
def dStage32 : Document :=
  ⟨"docs/stages/stage3_2-setup.md", "Stage 3.2: Setup", "stage", "stage 32 body"⟩

/-- Sample report document matching stage 3.2. -/
def dReport32 : Document :=
  ⟨"docs/reports/report3_2-setup.md", "Stage 3.2: Setup - Completion Report",
    "report", "report 32 body"⟩

/-- Sample report document for stage 3.1 (mismatched for stage 3.2). -/
def dReport31 : Document :=
  ⟨"docs/reports/report3_1-setup.md", "Stage 3.1: Setup - Completion Report",
    "report", "report 31 body"⟩

/-- One hexadecimal digit (lowercase), as produced by `json.dumps` in
`\uXXXX` escapes. -/
def hexDigit (n : Nat) : Char :=
  if n < 10 then Char.ofNat (48 + n) else Char.ofNat (87 + n)

/-- Four hexadecimal digits of a value below 2^16. -/
def hex4 (n : Nat) : List Char :=
  [hexDigit (n / 4096 % 16), hexDigit (n / 256 % 16), hexDigit (n / 16 % 16),
    hexDigit (n % 16)]

/-- Escaping of one character inside a JSON string, following `json.dumps`
with its default `ensure_ascii=True`: the two-character escapes for
quote, backslash, newline, carriage return, tab, backspace and form feed;
`\uXXXX` for other control characters and for all non-ASCII characters
(surrogate pairs above U+FFFF). -/
def jsonEscapeChar (c : Char) : List Char :=
  if c = '"' then ['\\', '"']
  else if c = '\\' then ['\\', '\\']
  else if c = '\n' then ['\\', 'n']
  else if c = '\r' then ['\\', 'r']
  else if c = '\t' then ['\\', 't']
  else if c = '\x08' then ['\\', 'b']
  else if c = '\x0c' then ['\\', 'f']
  else if c.toNat < 32 then '\\' :: 'u' :: hex4 c.toNat
  else if c.toNat < 127 then [c]
  else if c.toNat < 65536 then '\\' :: 'u' :: hex4 c.toNat
  else
    ('\\' :: 'u' :: hex4 (55296 + (c.toNat - 65536) / 1024)) ++
      ('\\' :: 'u' :: hex4 (56320 + (c.toNat - 65536) % 1024))

/-- A JSON string literal for `s`, per `json.dumps`. -/
def jsonStr (s : String) : String :=
  "\"" ++ String.mk (s.data.flatMap jsonEscapeChar) ++ "\""

/-- Model of `json.dumps(entry)` for the two record shapes the script builds, with
the default separators `", "` and `": "` and keys in insertion order. -/
def jsonDumps : MemEntry → String
  | .entity n t obs =>
    "\x7b\"type\": \"entity\", \"name\": " ++ jsonStr n ++
      ", \"entityType\": " ++ jsonStr t ++
      ", \"observations\": [" ++ String.intercalate ", " (obs.map jsonStr) ++ "]\x7d"
  | .relation f t r =>
    "\x7b\"type\": \"relation\", \"from\": " ++ jsonStr f ++
      ", \"to\": " ++ jsonStr t ++
      ", \"relationType\": " ++ jsonStr r ++ "\x7d"

/-- The characters of the literal `updated: "` — the fixed head of the
pattern `updated: ".*?"` rewritten by `update_progress_log`. -/
def updHead : List Char :=
  ['u', 'p', 'd', 'a', 't', 'e', 'd', ':', ' ', '"']

/-- Scan for the closing quote that the lazy `.*?` of `updated: ".*?"`
stops at: the first `"` on the current line.  Returns the characters after
it, or `none` when a newline or the end of input comes first (so the
pattern cannot match at this position, `.` not matching newlines). -/
def splitQuote : List Char → Option (List Char)
  | [] => none
  | c :: rest =>
    if c = '"' then some rest
    else if c = '\n' then none
    else splitQuote rest

/-- Fuel-indexed worker for
`re.sub(r'updated: ".*?"', f'updated: "{timestamp}"', content)`:
scans left to right; at each position where `updated: "` begins and a
closing quote follows on the same line, the whole match is replaced and
scanning resumes after it; otherwise the character is kept.  The fuel is
the input length, which suffices since each step consumes at least one
character. -/
def subUpdatedGo (ts : List Char) : Nat → List Char → List Char
  | _, [] => []
  | 0, s => s
  | fuel + 1, c :: rest =>
    if charsLead updHead (c :: rest) then
      match splitQuote (List.drop 9 rest) with
      | some rest2 => (updHead ++ ts ++ ['"']) ++ subUpdatedGo ts fuel rest2
      | none => c :: subUpdatedGo ts fuel rest
    else c :: subUpdatedGo ts fuel rest

/-- The `re.sub` of `update_progress_log` rewriting every
`updated: "<anything>"` field to the current timestamp. -/
def subUpdated (ts content : String) : String :=
  String.mk (subUpdatedGo ts.data content.data.length content.data)

/-- The literal Activity Log section marker. -/
def activityMarker : String := "## Activity Log"

/-- The literal Memory Sync Log section marker. -/
def syncMarker : String := "## Memory Sync Log"

/-- The pure content transformation of `update_progress_log`: splice the
activity entry at the Activity Log marker via `str.replace` (or append a
new section), likewise for the Memory Sync Log when the action starts with
`"Sync"`, then rewrite every `updated: "..."` field to the timestamp. -/
def updateProgressLogContent (content ts action : String) : String :=
  let activityEntry := "- " ++ ts ++ ": " ++ action
  let c1 :=
    if strContains content activityMarker then
      pyReplaceStr content activityMarker (activityMarker ++ "\n" ++ activityEntry)
    else
      content ++ "\n\n" ++ activityMarker ++ "\n" ++ activityEntry
  let c2 :=
    if pyStartsWith action "Sync" then
      let syncEntry := "- " ++ ts ++ ": Documentation synchronized"
      if strContains c1 syncMarker then
        pyReplaceStr c1 syncMarker (syncMarker ++ "\n" ++ syncEntry)
      else
        c1 ++ "\n\n" ++ syncMarker ++ "\n" ++ syncEntry
    else c1
  subUpdated ts c2

/-- Model of `update_progress_log`: `none` models a missing `docs/progress.md`
(return `False`, nothing written); otherwise the file's new content is the
transformed text and the function returns `True`.  The timestamp stands for
`get_timestamp()`. -/
def updateProgressLog (progress : Option String) (ts action : String) :
    Bool × Option String :=
  match progress with
  | none => (false, none)
  | some content => (true, some (updateProgressLogContent content ts action))

/-- The documentation files on disk that `get_all_docs` enumerates: the
three singleton files (present or absent) and the markdown files under the
three category directories, in traversal order. -/
structure FileSys where
  clientSpec : Option String
  roadmap : Option String
  progress : Option String
  phaseFiles : List FileInput
  stageFiles : List FileInput
  reportFiles : List FileInput
deriving DecidableEq, Repr

/-- A singleton documentation file contributes itself when present. -/
def singletonDoc (pathStr name stem : String) : Option String → List FileInput
  | some content => [⟨pathStr, name, stem, content⟩]
  | none => []

/-- Model of `get_all_docs`: the three singleton files in their fixed order, then
the files of `docs/phases`, `docs/stages`, `docs/reports`. -/
def getAllDocs (fs : FileSys) : List FileInput :=
  singletonDoc "docs/client_spec.md" "client_spec.md" "client_spec" fs.clientSpec ++
    singletonDoc "docs/project_roadmap.md" "project_roadmap.md" "project_roadmap"
      fs.roadmap ++
    singletonDoc "docs/progress.md" "progress.md" "progress" fs.progress ++
    fs.phaseFiles ++ fs.stageFiles ++ fs.reportFiles

/-- The bytes `sync_memory` writes to the memory file for a given document
list: one `json.dumps` line per memory entry. -/
def memOfDocs (docs : List FileInput) : String :=
  String.join
    ((createMemoryEntries ((docs.map extractMetadata).map some)).map
      (fun e => jsonDumps e ++ "\n"))

/-- Model of `sync_memory` as a state transition: returns the memory file content
written (`none` when no documentation was found, in which case the function
returns before writing anything) and the filesystem after the
progress-log update.  The timestamp stands for `get_timestamp()` inside
`update_progress_log`. -/
def syncMemory (fs : FileSys) (ts : String) : Option String × FileSys :=
  let docs := getAllDocs fs
  if docs.isEmpty then (none, fs)
  else
    let memStr := memOfDocs docs
    let upd := updateProgressLog fs.progress ts
      ("Synced " ++ toString docs.length ++ " documents to memory")
    (some memStr,
      { fs with
        progress :=
          match upd.2 with
          | some c => some c
          | none => fs.progress })

/-- The built-in stage template `STAGE_TMPL` (used by `create_stage` when
`templates/stage_template.md` is absent). -/
def STAGE_TMPL : String :=
  "# 🚧 STAGE {phase}.{stage}: {name}\n\n## 📝 OBJECTIVES\n- [Objective 1]\n- [Objective 2]\n- [Objective 3]\n\n## 🔧 IMPLEMENTATION SEGMENTS\n\n### SEGMENT 1: [Component Name]\n* 📝 **Test Requirements**:\n  - [Test 1]\n  - [Test 2]\n* 🛠️ **Implementation Tasks**:\n  - [Task 1]\n  - [Task 2]\n* ✅ **Verification Criteria**:\n  - [Criterion 1]\n  - [Criterion 2]\n\n### SEGMENT 2: [Component Name]\n* 📝 **Test Requirements**:\n  - [Test 1]\n  - [Test 2]\n* 🛠️ **Implementation Tasks**:\n  - [Task 1]\n  - [Task 2]\n* ✅ **Verification Criteria**:\n  - [Criterion 1]\n  - [Criterion 2]\n\n## 🎯 SUCCESS CRITERIA\n- [Success criterion 1]\n- [Success criterion 2]\n- [Success criterion 3]\n\n## 🚫 CONSTRAINTS\n- [Constraint 1]\n- [Constraint 2]\n\n## 📋 DEPENDENCIES\n- [Dependency 1]\n- [Dependency 2]\n\n## 📊 SYSTEM MEMORY UPDATE\nFor tracking completion, use:\n\n```\ndocument_component(\n  name=\"[Component Name]\",\n  overview=\"Brief overview\",\n  purpose=\"Component purpose\",\n  implementation=\"Implementation details\",\n  status=\"Completed\",\n  coverage=\"100%\"\n)\n\nupdate_stage_progress(\n  phase=\"{phase}\",\n  stage=\"{stage}\",\n  name=\"{name}\",\n  status=\"In Progress/Completed\",\n  completed=[\"List of completed segments\"],\n  issues=[\"Any issues encountered\"],\n  next=[\"Next steps\"]\n)\n```\n"

/-- Worker for Python `template.format(phase=..., stage=..., name=...)` on
the stage/report templates, whose only replacement fields are `{phase}`,
`{stage}` and `{name}` (with `\x7b\x7b`/`\x7d\x7d` as literal braces). -/
def fmtGo (p s n : List Char) : List Char → List Char
  | [] => []
  | '\x7b' :: '\x7b' :: rest => '\x7b' :: fmtGo p s n rest
  | '\x7d' :: '\x7d' :: rest => '\x7d' :: fmtGo p s n rest
  | '\x7b' :: 'p' :: 'h' :: 'a' :: 's' :: 'e' :: '\x7d' :: rest => p ++ fmtGo p s n rest
  | '\x7b' :: 's' :: 't' :: 'a' :: 'g' :: 'e' :: '\x7d' :: rest => s ++ fmtGo p s n rest
  | '\x7b' :: 'n' :: 'a' :: 'm' :: 'e' :: '\x7d' :: rest => n ++ fmtGo p s n rest
  | c :: rest => c :: fmtGo p s n rest

/-- Model of `template.format(phase=phase, stage=stage, name=name)` for the
templates used by this script. -/
def pyFormat3 (tmpl phase stage name : String) : String :=
  String.mk (fmtGo phase.data stage.data name.data tmpl.data)

/-- The stage filename built by `create_stage`:
`f"stage{phase}_{stage}-{name.lower().replace(' ', '-')}.md"`. -/
def stageFilename (phase stage : Int) (name : String) : String :=
  "stage" ++ toString phase ++ "_" ++ toString stage ++ "-" ++
    pyReplaceStr (pyLower name) " " "-" ++ ".md"

/-- The files `create_stage` touches: the stage files of `docs/stages`
(filename/content pairs), the optional `templates/stage_template.md`, and
the optional `docs/progress.md`. -/
structure StageState where
  stageFiles : List (String × String)
  stageTemplate : Option String
  progress : Option String
deriving DecidableEq, Repr

/-- Filename lookup among the stage files (models `stage_file.exists()` and
reading the file). -/
def assocLookup (k : String) : List (String × String) → Option String
  | [] => none
  | kv :: rest => if kv.1 = k then some kv.2 else assocLookup k rest

/-- Model of `create_stage` as a state transition: `false` models the
`"already exists"` error return, taken before anything is written.  On
success the formatted template is written to the new stage file and
`update_progress_log` runs. -/
def createStage (st : StageState) (phase stage : Int) (name ts : String) :
    StageState × Bool :=
  let filename := stageFilename phase stage name
  match assocLookup filename st.stageFiles with
  | some _ => (st, false)
  | none =>
    let template :=
      match st.stageTemplate with
      | some t => t
      | none => STAGE_TMPL
    let content := pyFormat3 template (toString phase) (toString stage) name
    let upd := updateProgressLog st.progress ts
      ("Created stage document: Stage " ++ toString phase ++ "." ++
        toString stage ++ ": " ++ name)
    ({ stageFiles := st.stageFiles ++ [(filename, content)]
       stageTemplate := st.stageTemplate
       progress :=
         match upd.2 with
         | some c => some c
         | none => st.progress }, true)

/-- Outcome of the `--create-stage` branch of `main`: `usage` models the
missing-argument path (usage message printed, `sys.exit(1)`, `create_stage`
never called, no file created); `runCreateStage` models the call through to
`create_stage`. -/
inductive CliResult where
  | usage
  | runCreateStage (phase stage : Int) (name : String)
deriving DecidableEq, Repr

/-- Python truthiness of `args.phase` / `args.stage` (an `int` or `None`):
`None` and `0` are falsy. -/
def pyTruthyOptInt : Option Int → Bool
  | none => false
  | some n => decide (n ≠ 0)

/-- Python truthiness of `args.name` (a `str` or `None`): `None` and `""`
are falsy. -/
def pyTruthyOptStr : Option String → Bool
  | none => false
  | some s => decide (s ≠ "")

/-- The `elif args.create_stage:` branch of `main`:
`if not args.phase or not args.stage or not args.name:` prints the usage
error and exits with status 1; otherwise `create_stage` is called. -/
def mainCreateStage (phase stage : Option Int) (name : Option String) : CliResult :=
  if !pyTruthyOptInt phase || !pyTruthyOptInt stage || !pyTruthyOptStr name then
    CliResult.usage
  else
    CliResult.runCreateStage (phase.getD 0) (stage.getD 0) (name.getD "")

/-- The implements relations as the specification claim words them: for
every stage-category document whose title matches `Stage (\d+)[._]`, one
relation per phase-category document whose title contains the substring
`"Phase <digits>"`. -/
def claimImplements (docs : List Document) : List MemEntry :=
  (docs.filter (fun d => d.category == "stage")).flatMap (fun st =>
    match stagePhaseNum st.title.data with
    | none => []
    | some num =>
      (docs.filter (fun d => d.category == "phase")).filterMap (fun ph =>
        if strContains ph.title ("Phase " ++ String.mk num) then
          some (MemEntry.relation ph.title st.title "implements")
        else none))

/-- The completed_by relations as the specification claim words them: for
every stage/report pair of documents where the stage title matches
`Stage (\d+[._]\d+)` and the captured identifier occurs in the report
title, one relation stage → report. -/
def claimCompletedBy (docs : List Document) : List MemEntry :=
  (docs.filter (fun d => d.category == "stage")).flatMap (fun st =>
    (docs.filter (fun d => d.category == "report")).filterMap (fun rp =>
      match stageId st.title.data with
      | some sid =>
        if strContains rp.title (String.mk sid) then
          some (MemEntry.relation st.title rp.title "completed_by")
        else none
      | none => none))

/-- Filesystem for the consecutive-sync counterexample: only a progress
file exists. -/
def fsProgressOnly : FileSys :=
  { clientSpec := none
    roadmap := none
    progress := some "## Activity Log\n- start"
    phaseFiles := []
    stageFiles := []
    reportFiles := [] }

/-- Filesystem with documentation but no progress file. -/
def fsNoProgress : FileSys :=
  { clientSpec := some "# Client Specification\nbody"
    roadmap := none
    progress := none
    phaseFiles := []
    stageFiles := []
    reportFiles := [] }

/-- Stage-creation state with no stage files, no template file and no
progress log. -/
def stEmpty : StageState :=
  { stageFiles := [], stageTemplate := none, progress := none }

/-- Sample client-spec file as read from disk. -/
def fiSpec : FileInput :=
  ⟨"docs/client_spec.md", "client_spec.md", "client_spec",
    "# Client Spec\nbody"⟩

/-- Sample roadmap file as read from disk. -/
def fiRoadmap : FileInput :=
  ⟨"docs/project_roadmap.md", "project_roadmap.md", "project_roadmap",
    "# Project Roadmap\nphases"⟩

/-! ### Helper lemmas -/

/-- On a list of real documents (no `None` entries) the entity loop maps
each document to its entity record. -/
theorem entityEntries_map_some (docs : List Document) :
    entityEntries (docs.map some) =
      docs.map (fun d => MemEntry.entity d.title (pyCapitalize d.category) [d.content]) := by
  induction docs with
  | nil => rfl
  | cons d rest ih =>
    simp only [entityEntries, List.map_cons, List.filterMap_cons] at *
    rw [ih]

/-- On a list of real documents the per-category comprehension is a filter. -/
theorem allCat_map_some (docs : List Document) (c : String) :
    allCat (docs.map some) c = docs.filter (fun d => d.category == c) := by
  induction docs with
  | nil => rfl
  | cons d rest ih =>
    simp only [allCat, List.map_cons, List.filterMap_cons] at *
    by_cases h : d.category = c
    · simp [h, ih]
    · simp [h, ih]

/-- A first-of-category lookup returns a member of that category. -/
theorem firstCat_map_some (docs : List Document) (c : String) (p : Document)
    (h : firstCat (docs.map some) c = some p) : p ∈ docs ∧ p.category = c := by
  induction docs with
  | nil => simp [firstCat] at h
  | cons d rest ih =>
    simp only [firstCat, List.map_cons, List.findSome?_cons] at h
    by_cases hd : d.category = c
    · simp only [hd, if_pos rfl] at h
      cases h
      exact ⟨List.mem_cons_self _ _, hd⟩
    · simp only [if_neg hd] at h
      have := ih (by simpa [firstCat] using h)
      exact ⟨List.mem_cons_of_mem _ this.1, this.2⟩

/-- The function `pyCapitalize` agrees with first-letter capitalization on every
category the classifier can produce (they are all lowercase). -/
theorem pyCapitalize_eq_capFirst {c : String} (h : c ∈ categoryValues) :
    pyCapitalize c = capFirst c := by
  fin_cases h <;> decide

/-- The classifier only produces the seven category values. -/
theorem categoryOf_mem (p n : String) : categoryOf p n ∈ categoryValues := by
  unfold categoryOf categoryValues
  split_ifs <;> simp

/-- Every record the informs rule emits is a relation record. -/
theorem informsRels_isRel (documents : List (Option Document)) :
    ∀ e ∈ informsRels documents, isRelationEntry e = true := by
  intro e h
  unfold informsRels at h
  split at h
  · simp only [List.mem_singleton] at h
    subst h; rfl
  · simp at h

/-- Every record the tracks rule emits is a relation record. -/
theorem tracksRels_isRel (documents : List (Option Document)) :
    ∀ e ∈ tracksRels documents, isRelationEntry e = true := by
  intro e h
  unfold tracksRels at h
  split at h
  · simp at h
  · simp only [List.mem_filterMap] at h
    obtain ⟨od, _, hod⟩ := h
    cases od with
    | none => simp at hod
    | some d =>
      simp only at hod
      split at hod
      · cases hod; rfl
      · simp at hod

/-- Every record the contains rule emits is a relation record. -/
theorem containsRels_isRel (documents : List (Option Document)) :
    ∀ e ∈ containsRels documents, isRelationEntry e = true := by
  intro e h
  unfold containsRels at h
  split at h
  · simp at h
  · simp only [List.mem_map] at h
    obtain ⟨ph, _, rfl⟩ := h
    rfl

/-- Every record the implements rule emits is a relation record. -/
theorem implementsRels_isRel (documents : List (Option Document)) :
    ∀ e ∈ implementsRels documents, isRelationEntry e = true := by
  intro e h
  unfold implementsRels at h
  simp only [List.mem_flatMap] at h
  obtain ⟨st, _, hst⟩ := h
  split at hst
  · simp at hst
  · simp only [List.mem_filterMap] at hst
    obtain ⟨ph, _, hph⟩ := hst
    split at hph
    · cases hph; rfl
    · simp at hph

/-- Every record the completed_by rule emits is a relation record. -/
theorem completedByRels_isRel (documents : List (Option Document)) :
    ∀ e ∈ completedByRels documents, isRelationEntry e = true := by
  intro e h
  unfold completedByRels at h
  simp only [List.mem_flatMap] at h
  obtain ⟨st, _, hst⟩ := h
  simp only [List.mem_filterMap] at hst
  obtain ⟨rp, _, hrp⟩ := hst
  split at hrp
  · split at hrp
    · cases hrp; rfl
    · simp at hrp
  · simp at hrp

/-- Every record emitted by the five relation rules is a relation record. -/
theorem relationEntries_isRel (documents : List (Option Document)) :
    ∀ e ∈ relationEntries documents, isRelationEntry e = true := by
  intro e h
  unfold relationEntries at h
  rcases List.mem_append.mp h with h' | h5
  · rcases List.mem_append.mp h' with h'' | h4
    · rcases List.mem_append.mp h'' with h''' | h3
      · rcases List.mem_append.mp h''' with h1 | h2
        · exact informsRels_isRel documents e h1
        · exact tracksRels_isRel documents e h2
      · exact containsRels_isRel documents e h3
    · exact implementsRels_isRel documents e h4
  · exact completedByRels_isRel documents e h5

/-- The tracks loop over real documents is a filter-and-map. -/
theorem tracksRels_filterMap (docs : List Document) (p : Document) :
    (docs.map some).filterMap (fun od =>
      match od with
      | some d =>
        if d ≠ p then some (MemEntry.relation p.title d.title "tracks") else none
      | none => none) =
    (docs.filter (fun d => !(d == p))).map
      (fun d => MemEntry.relation p.title d.title "tracks") := by
  rw [List.filterMap_map]
  simp only [ne_eq, ite_not]
  induction docs with
  | nil => rfl
  | cons d rest ih =>
    rw [List.filter_cons, List.filterMap_cons]
    by_cases h : d = p
    · simp [h, ih]
    · simp [h, ih]

/-- Removing the single occurrence of a member from a duplicate-free list
shortens it by exactly one. -/
theorem length_filter_ne (docs : List Document) (p : Document)
    (hnd : docs.Nodup) (hmem : p ∈ docs) :
    (docs.filter (fun d => !(d == p))).length = docs.length - 1 := by
  induction docs with
  | nil => cases hmem
  | cons d rest ih =>
    rw [List.nodup_cons] at hnd
    by_cases h : d = p
    · subst h
      have hrest : rest.filter (fun x => !(x == d)) = rest := by
        apply List.filter_eq_self.mpr
        intro a ha
        simp only [Bool.not_eq_true', beq_eq_false_iff_ne, ne_eq]
        exact fun e => hnd.1 (e ▸ ha)
      simp [List.filter_cons, hrest]
    · have hm : p ∈ rest := by
        rcases List.mem_cons.mp hmem with h1 | h1
        · exact absurd h1.symm h
        · exact h1
      have hr := ih hnd.2 hm
      have hpos : 0 < rest.length := List.length_pos_of_mem hm
      simp only [List.filter_cons]
      have hb : (!(d == p)) = true := by
        simp only [Bool.not_eq_true', beq_eq_false_iff_ne, ne_eq]
        exact h
      rw [if_pos hb]
      simp only [List.length_cons, hr]
      omega

/-! ### Claims C1–C6 -/

/-- C1: for every list of successfully extracted documents, the inference
engine emits exactly one entity record per document, in input order, with
name = the document's title, entityType = the category with its first
letter capitalized, and observations = the singleton list holding the full
content; and every entity record precedes every relation record in the
output. -/
theorem claim1_entities_per_document (inputs : List FileInput) :
    createMemoryEntries ((inputs.map extractMetadata).map some) =
      (inputs.map extractMetadata).map entityOfClaim ++
        relationEntries ((inputs.map extractMetadata).map some) ∧
    ∀ e ∈ relationEntries ((inputs.map extractMetadata).map some),
      isRelationEntry e = true := by
  constructor
  · unfold createMemoryEntries
    congr 1
    rw [entityEntries_map_some]
    apply List.map_congr_left
    intro d hd
    simp only [List.mem_map] at hd
    obtain ⟨i, _, rfl⟩ := hd
    unfold entityOfClaim
    have hc : (extractMetadata i).category = categoryOf i.pathStr i.name := rfl
    rw [hc, pyCapitalize_eq_capFirst (categoryOf_mem i.pathStr i.name)]
  · exact relationEntries_isRel _

/-- Witness for C1: on a concrete two-document run the record the informs
rule emits is a relation record, by the theorem's entities-precede-relations
part. -/
theorem claim1_witness :
    isRelationEntry (MemEntry.relation "Client Spec" "Project Roadmap" "informs") =
      true :=
  (claim1_entities_per_document [fiSpec, fiRoadmap]).2
    (MemEntry.relation "Client Spec" "Project Roadmap" "informs") (by decide)

/-- C2: the extracted category follows the fixed priority order of path
substring checks ("phases", "stages", "reports") and then filename checks;
in particular (no earlier check firing) a path containing both "stages"
and "reports" is classified "stage". -/
theorem claim2_category_priority (p n : String) :
    (strContains p "phases" = true → categoryOf p n = "phase") ∧
    (strContains p "phases" = false → strContains p "stages" = true →
      categoryOf p n = "stage") ∧
    (strContains p "phases" = false → strContains p "stages" = false →
      strContains p "reports" = true → categoryOf p n = "report") ∧
    (strContains p "phases" = false → strContains p "stages" = false →
      strContains p "reports" = false → n = "client_spec.md" →
      categoryOf p n = "spec") ∧
    (strContains p "phases" = false → strContains p "stages" = false →
      strContains p "reports" = false → n ≠ "client_spec.md" →
      n = "project_roadmap.md" → categoryOf p n = "roadmap") ∧
    (strContains p "phases" = false → strContains p "stages" = false →
      strContains p "reports" = false → n ≠ "client_spec.md" →
      n ≠ "project_roadmap.md" → n = "progress.md" →
      categoryOf p n = "progress") ∧
    (strContains p "phases" = false → strContains p "stages" = false →
      strContains p "reports" = false → n ≠ "client_spec.md" →
      n ≠ "project_roadmap.md" → n ≠ "progress.md" →
      categoryOf p n = "document") ∧
    (strContains p "phases" = false → strContains p "stages" = true →
      strContains p "reports" = true → categoryOf p n = "stage") := by
  refine ⟨?_, ?_, ?_, ?_, ?_, ?_, ?_, ?_⟩ <;>
    · intros
      simp_all [categoryOf]

/-- Witness for C2 at a concrete path containing both "stages" and
"reports". -/
theorem claim2_witness :
    categoryOf "docs/stages/old-reports/x.md" "x.md" = "stage" :=
  (claim2_category_priority "docs/stages/old-reports/x.md" "x.md").2.2.2.2.2.2.2
    (by decide) (by decide) (by decide)

/-- Counterexample for C3: the heading regex `r"# (.+?)$"` is not anchored
to line starts, so the level-2 heading `"## Sub"` does override the default
title (the match begins at the second `#`), contradicting the claim that
non-level-1 headings leave the default in place. -/
theorem claim3_counterexample :
    titleOf "notes" "## Sub" = "Sub" ∧ defaultTitle "notes" = "Notes" ∧
      titleOf "notes" "## Sub" ≠ defaultTitle "notes" :=
  ⟨by decide, by decide, by decide⟩

/-- C3 (amended): the extracted title defaults to the filename stem with
"-" and "_" replaced by spaces and title-cased; it is overridden by the
trimmed text running from the first occurrence of the two-character
sequence `"# "` (followed by at least one non-newline character) to the end
of that line, searched over the whole content — the occurrence may sit
inside a longer `#` run (so `"##"` headings also override) or mid-line, and
when several occurrences exist the first one wins. -/
theorem claim3_title_amended :
    (∀ stem content, findHashHeading content.data = none →
      titleOf stem content = defaultTitle stem) ∧
    titleOf "notes" "## Sub" = "Sub" ∧
    titleOf "notes" "# First\n# Second" = "First" ∧
    titleOf "my-file_name" "plain text with no heading" = "My File Name" ∧
    titleOf "x" "intro # note here\n# Real Heading" = "note here" := by
  refine ⟨?_, by decide, by decide, by decide, by decide⟩
  intro stem content h
  unfold titleOf
  rw [h]

/-- Witness for C3 (amended): a concrete content with no `"# "` occurrence
keeps the default title. -/
theorem claim3_title_amended_witness :
    findHashHeading ("plain text").data = none ∧
      titleOf "a-b" "plain text" = defaultTitle "a-b" :=
  ⟨by decide, claim3_title_amended.1 "a-b" "plain text" (by decide)⟩

/-- C4: when the extracted documents have pairwise-distinct paths (as every
real run produces) and a progress document exists, the tracks rule emits
one relation per document other than the progress document itself, in
document order, from the progress title to the other document's title —
`docs.length - 1` relations in total. -/
theorem claim4_tracks (docs : List Document) (p : Document)
    (hnd : (docs.map Document.path).Nodup)
    (hp : firstCat (docs.map some) "progress" = some p) :
    tracksRels (docs.map some) =
      (docs.filter (fun d => !(d == p))).map
        (fun d => MemEntry.relation p.title d.title "tracks") ∧
    (tracksRels (docs.map some)).length = docs.length - 1 := by
  have hmem : p ∈ docs := (firstCat_map_some docs "progress" p hp).1
  have hnd' : docs.Nodup := hnd.of_map
  have heq : tracksRels (docs.map some) =
      (docs.filter (fun d => !(d == p))).map
        (fun d => MemEntry.relation p.title d.title "tracks") := by
    unfold tracksRels
    rw [hp]
    exact tracksRels_filterMap docs p
  refine ⟨heq, ?_⟩
  rw [heq, List.length_map]
  exact length_filter_ne docs p hnd' hmem

/-- Witness for C4 at a concrete three-document set containing a progress
document. -/
theorem claim4_tracks_witness :
    tracksRels ([dSpec, dProg, dPhase2].map some) =
      ([dSpec, dProg, dPhase2].filter (fun d => !(d == dProg))).map
        (fun d => MemEntry.relation dProg.title d.title "tracks") ∧
    (tracksRels ([dSpec, dProg, dPhase2].map some)).length =
      [dSpec, dProg, dPhase2].length - 1 :=
  claim4_tracks [dSpec, dProg, dPhase2] dProg (by decide) (by decide)

/-- C5: the implements rule emits exactly one relation phase → stage for
every stage whose title matches `Stage <digits>` followed by `.` or `_`
and every phase whose title contains `Phase <those digits>`; concretely,
stage "Stage 2.1: Auth" with phase "Phase 2: Core" yields exactly that one
implements relation, and stage "Stage 9.1: X" with no matching phase yields
none. -/
theorem claim5_implements :
    (∀ docs : List Document,
      implementsRels (docs.map some) = claimImplements docs) ∧
    relFilter (createMemoryEntries ([dPhase2, dStage21].map some)) "implements" =
      [MemEntry.relation "Phase 2: Core" "Stage 2.1: Auth" "implements"] ∧
    relFilter (createMemoryEntries ([dPhase2, dStage91].map some)) "implements" =
      [] := by
  refine ⟨?_, by decide, by decide⟩
  intro docs
  unfold implementsRels claimImplements
  simp only [allCat_map_some]

/-- C6: the completed_by rule emits exactly one relation stage → report for
every stage/report pair where the stage title matches
`Stage <digits>[._]<digits>` and the matched identifier occurs in the
report title; concretely, stage "Stage 3.2: Setup" is completed by report
"Stage 3.2: Setup - Completion Report" and not by
"Stage 3.1: Setup - Completion Report". -/
theorem claim6_completed_by :
    (∀ docs : List Document,
      completedByRels (docs.map some) = claimCompletedBy docs) ∧
    relFilter (createMemoryEntries ([dStage32, dReport32, dReport31].map some))
      "completed_by" =
      [MemEntry.relation "Stage 3.2: Setup" "Stage 3.2: Setup - Completion Report"
        "completed_by"] := by
  refine ⟨?_, by decide⟩
  intro docs
  unfold completedByRels claimCompletedBy
  simp only [allCat_map_some]

/-- The memory content `sync_memory` writes depends only on the located
documents (their paths, names, stems and contents), not on the timestamp. -/
theorem syncMemory_fst_eq (fs fs' : FileSys) (ts ts' : String)
    (h : getAllDocs fs = getAllDocs fs') :
    (syncMemory fs ts).1 = (syncMemory fs' ts').1 := by
  simp only [syncMemory, h]
  by_cases he : (getAllDocs fs').isEmpty <;> simp [he]

/-- When no progress file exists, `sync_memory` leaves the filesystem
unchanged (the memory file lives outside the document tree). -/
theorem syncMemory_snd_no_progress (fs : FileSys) (ts : String)
    (h : fs.progress = none) :
    (syncMemory fs ts).2 = fs := by
  simp only [syncMemory, h, updateProgressLog]
  by_cases he : (getAllDocs fs).isEmpty
  · simp [he]
  · simp only [he, Bool.false_eq_true, if_false]
    rw [← h]

/-- Appending a fresh key at the end of an association list makes it the
lookup result when the key was previously absent. -/
theorem assocLookup_append_self (k v : String) (l : List (String × String))
    (h : assocLookup k l = none) :
    assocLookup k (l ++ [(k, v)]) = some v := by
  induction l with
  | nil => simp [assocLookup]
  | cons kv rest ih =>
    simp only [assocLookup, List.cons_append] at h ⊢
    by_cases hk : kv.1 = k
    · rw [if_pos hk] at h
      cases h
    · rw [if_neg hk] at h ⊢
      exact ih h

/-- When the target filename is absent, `create_stage` writes the formatted
template and updates the progress log. -/
theorem createStage_none (st : StageState) (p s : Int) (n ts : String)
    (h : assocLookup (stageFilename p s n) st.stageFiles = none) :
    createStage st p s n ts =
      ({ stageFiles := st.stageFiles ++ [(stageFilename p s n,
           pyFormat3
             (match st.stageTemplate with
              | some t => t
              | none => STAGE_TMPL)
             (toString p) (toString s) n)]
         stageTemplate := st.stageTemplate
         progress :=
           match (updateProgressLog st.progress ts
               ("Created stage document: Stage " ++ toString p ++ "." ++
                 toString s ++ ": " ++ n)).2 with
           | some c => some c
           | none => st.progress }, true) := by
  simp only [createStage, h]

/-- When the target filename is present, `create_stage` reports the error
and returns without changing anything. -/
theorem createStage_some (st : StageState) (p s : Int) (n ts c : String)
    (h : assocLookup (stageFilename p s n) st.stageFiles = some c) :
    createStage st p s n ts = (st, false) := by
  simp only [createStage, h]

/-! ### Claims C7–C10 -/

/-- Counterexample for C7: `str.replace` replaces every occurrence of
`"## Activity Log"`, so with two markers in the document both occurrences
gain the inserted line, contradicting the claim that only the first
occurrence does. -/
theorem claim7_counterexample :
    updateProgressLog (some "## Activity Log\n- a\n\n## Activity Log\n- b")
        "T" "Did X" =
      (true,
        some "## Activity Log\n- T: Did X\n- a\n\n## Activity Log\n- T: Did X\n- b") ∧
    (updateProgressLog (some "## Activity Log\n- a\n\n## Activity Log\n- b")
        "T" "Did X").2 ≠
      some "## Activity Log\n- T: Did X\n- a\n\n## Activity Log\n- b" :=
  ⟨by decide, by decide⟩

/-- C7 (amended): the progress-log update returns false and changes nothing
when the log file does not exist; otherwise it inserts the timestamped
bullet line immediately after every occurrence of the literal marker
`"## Activity Log"` (`str.replace` replaces all occurrences — in particular
after the first occurrence when the marker is unique, as in the claim's
concrete example), and appends a new `"## Activity Log"` section with the
line at end of file when the marker is absent. -/
theorem claim7_activity_amended :
    (∀ ts action, updateProgressLog none ts action = (false, none)) ∧
    updateProgressLog (some "## Activity Log\n- old line") "T" "Did X" =
      (true, some "## Activity Log\n- T: Did X\n- old line") ∧
    updateProgressLog (some "# Doc\nbody") "T" "Did X" =
      (true, some "# Doc\nbody\n\n## Activity Log\n- T: Did X") ∧
    updateProgressLog (some "## Activity Log\n- a\n\n## Activity Log\n- b")
        "T" "Did X" =
      (true,
        some "## Activity Log\n- T: Did X\n- a\n\n## Activity Log\n- T: Did X\n- b") :=
  ⟨fun _ _ => rfl, by decide, by decide, by decide⟩

/-- Counterexample for C8: with a progress document present and no external
modification between two back-to-back syncs, the first run's own
progress-log update changes `docs/progress.md` (a source document), so the
second run writes different memory bytes — the consecutive runs are not
byte-identical. -/
theorem claim8_counterexample :
    (syncMemory fsProgressOnly "T1").1 ≠
      (syncMemory (syncMemory fsProgressOnly "T1").2 "T2").1 := by
  decide

/-- C8 (amended): the memory content written by sync is a pure function of
the located documents (entities store raw content verbatim and no timestamp
enters the memory records), so runs over equal document states produce
byte-identical memory content; and two consecutive runs are byte-identical
when no progress document exists — but when `docs/progress.md` exists, the
first run's progress-log update rewrites it, and the second run's memory
output differs. -/
theorem claim8_sync_amended :
    (∀ fs fs' ts ts', getAllDocs fs = getAllDocs fs' →
      (syncMemory fs ts).1 = (syncMemory fs' ts').1) ∧
    (∀ fs ts ts', fs.progress = none →
      (syncMemory (syncMemory fs ts).2 ts').1 = (syncMemory fs ts).1) := by
  refine ⟨syncMemory_fst_eq, fun fs ts ts' h => ?_⟩
  rw [syncMemory_snd_no_progress fs ts h]
  exact syncMemory_fst_eq fs fs ts' ts rfl

/-- Witness for C8 (amended) at a concrete progress-free filesystem. -/
theorem claim8_sync_amended_witness :
    (syncMemory (syncMemory fsNoProgress "T1").2 "T2").1 =
      (syncMemory fsNoProgress "T1").1 :=
  claim8_sync_amended.2 fsNoProgress "T1" "T2" rfl

/-- C9: when the stage file for the given phase/stage/name does not exist
yet, the first `create_stage` call succeeds, and a second call with
identical phase/stage/name reports the already-exists error and aborts,
leaving the whole state — the created file's content and the progress
log — untouched. -/
theorem claim9_create_stage_no_overwrite (st : StageState) (p s : Int)
    (n ts ts' : String)
    (h : assocLookup (stageFilename p s n) st.stageFiles = none) :
    (createStage st p s n ts).2 = true ∧
    createStage (createStage st p s n ts).1 p s n ts' =
      ((createStage st p s n ts).1, false) := by
  have hfst := createStage_none st p s n ts h
  constructor
  · rw [hfst]
  · have hlook : ∃ c,
        assocLookup (stageFilename p s n)
          (createStage st p s n ts).1.stageFiles = some c := by
      rw [hfst]
      exact ⟨_, assocLookup_append_self _ _ _ h⟩
    obtain ⟨c, hc⟩ := hlook
    exact createStage_some _ p s n ts' c hc

/-- Witness for C9 at a concrete empty stage directory. -/
theorem claim9_witness :
    (createStage stEmpty 1 1 "Setup" "T1").2 = true ∧
    createStage (createStage stEmpty 1 1 "Setup" "T1").1 1 1 "Setup" "T2" =
      ((createStage stEmpty 1 1 "Setup" "T1").1, false) :=
  claim9_create_stage_no_overwrite stEmpty 1 1 "Setup" "T1" "T2" rfl

/-- C10: at the `--create-stage` dispatch, an explicitly supplied 0 for
`--phase` or `--stage`, or an empty string for `--name`, takes the same
usage-error path as an omitted argument (non-zero exit, `create_stage`
never called), because the presence checks test Python truthiness of the
parsed values. -/
theorem claim10_cli_zero_as_missing :
    (∀ (st : Option Int) (nm : Option String),
      mainCreateStage (some 0) st nm = CliResult.usage ∧
      mainCreateStage (some 0) st nm = mainCreateStage none st nm) ∧
    (∀ (ph : Option Int) (nm : Option String),
      mainCreateStage ph (some 0) nm = CliResult.usage ∧
      mainCreateStage ph (some 0) nm = mainCreateStage ph none nm) ∧
    (∀ (ph st : Option Int),
      mainCreateStage ph st (some "") = CliResult.usage ∧
      mainCreateStage ph st (some "") = mainCreateStage ph st none) := by
  refine ⟨fun st nm => ⟨?_, ?_⟩, fun ph nm => ⟨?_, ?_⟩, fun ph st => ⟨?_, ?_⟩⟩ <;>
    simp [mainCreateStage, pyTruthyOptInt, pyTruthyOptStr]

end Akro
